import Mathlib

/-
Shallow embedding of bot_server.py (Telegram SCORM bot + Flask static server).

Modelling conventions:
  * Python strings are Lean String values; lowercasing uses the ASCII
    mapping of Char.toLower, which agrees with str.lower on the ASCII
    identifiers, filenames and extensions handled by the program.
  * Filesystem paths are lists of path components.  Parsing a POSIX path
    string into components (pathlib.Path) keeps ".." components and drops
    empty and "." components; Path.resolve is modelled lexically, with the
    process working directory taken as the filesystem root.
  * Machine-level I/O is made explicit: the result of json.loads is an
    Option Json value (none modelling the exception branch), the presence
    of a file on disk is a predicate passed to the resolver, and a zip
    entry carries a flag saying whether copying it raises an I/O error.
-/

/-! ### Configuration constants (src lines 36-37) -/

def MAX_ZIP_SIZE : Nat := 200 * 1024 * 1024

def DISALLOWED_EXTS : List String := [".exe", ".dll", ".bat", ".sh", ".com", ".py"]

/-! ### String helpers mirroring the Python primitives used by the source -/

/-- ASCII lowercasing, the fragment of str.lower exercised by the program. -/
def lowerStr (s : String) : String := String.mk (s.data.map Char.toLower)

/-- Whitespace recognised by str.strip (ASCII fragment). -/
def isSpaceChar (c : Char) : Bool := c = ' ' || c = '\t' || c = '\n' || c = '\r'

/-- Python str.strip: remove leading and trailing whitespace. -/
def pyStrip (s : String) : String :=
  String.mk (((s.data.dropWhile isSpaceChar).reverse.dropWhile isSpaceChar).reverse)

/-- Python " ".join(args). -/
def joinSpace : List String → String
  | [] => ""
  | [a] => a
  | a :: b :: rest => a ++ " " ++ joinSpace (b :: rest)

/-- Contiguous-sublist test on character lists, the semantics of the Python
in operator on strings. -/
def isSubChars (q : List Char) : List Char → Bool
  | [] => q.isEmpty
  | c :: rest => q.isPrefixOf (c :: rest) || isSubChars q rest

/-- Python q in s for strings. -/
def substrB (q s : String) : Bool := isSubChars q.data s.data

/-- Python s.startswith(pre). -/
def strStartsWith (s pre : String) : Bool := List.isPrefixOf pre.data s.data

/-- Python s.endswith(suf). -/
def strEndsWith (s suf : String) : Bool := List.isSuffixOf suf.data s.data

/-! ### Path model -/

/-- Split a character list at every slash. -/
def splitSlashAux : List Char → List Char → List String
  | acc, [] => [String.mk acc.reverse]
  | acc, c :: cs =>
    if c = '/' then String.mk acc.reverse :: splitSlashAux [] cs
    else splitSlashAux (c :: acc) cs

/-- Components of a POSIX path string as pathlib.Path parses it: split on
slashes, dropping empty and "." components but keeping "..". -/
def strToParts (s : String) : List String :=
  (splitSlashAux [] s.data).filter (fun p => !(p == "" || p == "."))

/-- Render components back to an absolute POSIX path string, as str applied
to an absolute pathlib.Path. -/
def joinParts : List String → String
  | [] => ""
  | p :: ps => "/" ++ p ++ joinParts ps

def pathStr (parts : List String) : String :=
  if parts.isEmpty then "/" else joinParts parts

/-- Lexical Path.resolve: process components left to right against an
accumulator of already-resolved components; ".." pops one component (and is
a no-op at the root), "." and empty components vanish.  Symlink indirection
is outside the filesystem model, so resolution is purely lexical. -/
def resolveParts : List String → List String → List String
  | acc, [] => acc
  | acc, p :: ps =>
    if p = "" || p = "." then resolveParts acc ps
    else if p = ".." then resolveParts acc.dropLast ps
    else resolveParts (acc ++ [p]) ps

/-! ### Course records and registry (src lines 40, 162-172) -/

/-- One course entry of COURSES, with the fields ask_title persists. -/
structure CourseRecord where
  id : String
  owner : Int
  number : String
  title : String
  filename : String
  path : String
  token : String
  created_at : String
deriving DecidableEq

/-- COURSES, a mapping from course id to record, modelled as an
association list. -/
abbrev Registry := List (String × CourseRecord)

/-- Dictionary lookup COURSES.get(course_id). -/
def regGet : Registry → String → Option CourseRecord
  | [], _ => none
  | (k, v) :: rest, cid => if k = cid then some v else regGet rest cid

/-! ### Persistence: save_db / load_db (src lines 45-55)

The snapshot file holds the json.dumps serialization of COURSES.  The JSON
values the program ever writes are strings, integers and string-keyed
objects, so the model carries exactly that fragment; json.dumps becomes
encoding into this tree and json.loads becomes an Option Json (none for
the exception branch of load_db). -/

inductive Json where
  | str (s : String)
  | num (n : Int)
  | obj (kvs : List (String × Json))

def jGet : List (String × Json) → String → Option Json
  | [], _ => none
  | (k, v) :: rest, key => if k = key then some v else jGet rest key

def decodeStr : Json → Option String
  | Json.str s => some s
  | _ => none

def decodeInt : Json → Option Int
  | Json.num n => some n
  | _ => none

/-- Serialization of one course record, the dict built at src lines 162-171. -/
def encodeRecord (r : CourseRecord) : Json :=
  Json.obj [("id", Json.str r.id), ("owner", Json.num r.owner),
    ("number", Json.str r.number), ("title", Json.str r.title),
    ("filename", Json.str r.filename), ("path", Json.str r.path),
    ("token", Json.str r.token), ("created_at", Json.str r.created_at)]

/-- Typed reading of one record back out of the loaded JSON object. -/
def decodeRecord : Json → Option CourseRecord
  | Json.obj kvs => do
    let i ← jGet kvs "id" >>= decodeStr
    let ow ← jGet kvs "owner" >>= decodeInt
    let nm ← jGet kvs "number" >>= decodeStr
    let tl ← jGet kvs "title" >>= decodeStr
    let fn ← jGet kvs "filename" >>= decodeStr
    let pa ← jGet kvs "path" >>= decodeStr
    let tk ← jGet kvs "token" >>= decodeStr
    let ca ← jGet kvs "created_at" >>= decodeStr
    pure ⟨i, ow, nm, tl, fn, pa, tk, ca⟩
  | _ => none

/-- save_db (src lines 53-55): json.dumps of the whole mapping. -/
def save_db (reg : Registry) : Json :=
  Json.obj (reg.map (fun kv => (kv.1, encodeRecord kv.2)))

def decodeEntries : List (String × Json) → Option Registry
  | [] => some []
  | (k, j) :: rest => do
    let r ← decodeRecord j
    let tail ← decodeEntries rest
    pure ((k, r) :: tail)

def decodeRegistry : Json → Option Registry
  | Json.obj kvs => decodeEntries kvs
  | _ => none

/-- load_db (src lines 45-51) for an existing snapshot file: the argument
is the outcome of json.loads on its text, none modelling the exception
branch.  Any parse failure yields the empty registry; the function is
total, so startup never propagates snapshot corruption. -/
def load_db (parsed : Option Json) : Registry :=
  match parsed with
  | none => []
  | some j => (decodeRegistry j).getD []

/-! ### File resolver: serve_course_file (src lines 60-74) -/

/-- posixpath.normpath on a relative path given as slash-separated
segments, split into the count of leading ".." components and the list
of remaining plain components: empty and "." segments vanish, ".."
cancels the preceding plain component and accumulates at the front when
there is none to cancel.  By construction the plain components are never
"", "." or "..". -/
def normpathCore : Nat → List String → List String → Nat × List String
  | up, acc, [] => (up, acc)
  | up, acc, p :: ps =>
    if p = "" || p = "." then normpathCore up acc ps
    else if p = ".." then
      if acc.isEmpty then normpathCore (up + 1) acc ps
      else normpathCore up acc.dropLast ps
    else normpathCore up (acc ++ [p]) ps

/-- The normalized relative path as a component list. -/
def normpathSegs (fname : List String) : List String :=
  List.replicate (normpathCore 0 [] fname).1 ".." ++ (normpathCore 0 [] fname).2

/-- The rejection test of werkzeug safe_join, run by send_from_directory
on the raw relative path: the normalized path is refused when it is
".." or starts with "../", i.e. when any leading ".." survives
normalization.  The other two safe_join rejections cannot fire here: the
route's path converter never yields a leading slash (isabs) and POSIX
has no alternative separator. -/
def safeJoinRejects (fname : List String) : Bool :=
  decide (0 < (normpathCore 0 [] fname).1)

/-- Negation of the guard at src line 66: the request passes the token gate
iff a token is supplied, it is non-empty (Python truthiness of the string)
and it equals the stored token exactly. -/
def tokenOk : Option String → String → Bool
  | none, _ => false
  | some t, stored => if t = "" then false else decide (t = stored)

inductive ServeResult where
  | notFound
  | forbidden
  | serve (path : List String)
deriving DecidableEq

/-- serve_course_file: look up the course, check the token, resolve the
requested relative path against the storage path and compare rendered
path strings with startswith, check existence, then hand the request to
send_from_directory (src line 74).  send_from_directory carries the
werkzeug semantics it has in every Flask release: safe_join re-checks
the raw relative path and raises NotFound when it normalizes to a
leading "..", and the joined target must be a regular file, otherwise
NotFound again; only then is the file at the joined path returned.  The
onDisk predicate models requested.exists(), isFile models the
os.path.isfile test inside send_from_directory; fname carries the
slash-separated segments of the (relative) filename matched by the
route's path converter. -/
def serve_course_file (courses : Registry) (cid : String) (fname : List String)
    (tok : Option String) (onDisk isFile : List String → Bool) : ServeResult :=
  match regGet courses cid with
  | none => ServeResult.notFound
  | some meta =>
    if !(tokenOk tok meta.token) then ServeResult.forbidden
    else
      let courseResolved := resolveParts [] (strToParts meta.path)
      let requested := resolveParts [] (strToParts meta.path ++ fname)
      if !(strStartsWith (pathStr requested) (pathStr courseResolved)) then
        ServeResult.forbidden
      else if !(onDisk requested) then ServeResult.notFound
      else if safeJoinRejects fname then ServeResult.notFound
      else
        let served := strToParts meta.path ++ normpathSegs fname
        if !(isFile served) then ServeResult.notFound
        else ServeResult.serve served

/-! ### Query command: find_cmd (src lines 193-210) -/

/-- Search text of one record, number.lower() + " " + title.lower(). -/
def courseText (c : CourseRecord) : String :=
  lowerStr c.number ++ " " ++ lowerStr c.title

/-- Query string built at src line 194: " ".join(args).strip().lower(). -/
def findQuery (args : List String) : String := lowerStr (pyStrip (joinSpace args))

/-- find_cmd on the record list COURSES.values(): none models the usage
message for an empty query, some the reported result list. -/
def find_cmd (courses : List CourseRecord) (userId : Int) (args : List String) :
    Option (List CourseRecord) :=
  if findQuery args = "" then none
  else
    some ((courses.filter (fun c => c.owner == userId)).filter
      (fun c => substrB (findQuery args) (courseText c)))

/-! ### Archive ingestion: ask_title (src lines 130-177) -/

/-- One member of the uploaded zip.  isAbs models nm.startswith("/"),
parts models Path(nm).parts (root excluded), content the decompressed
bytes, and corrupt the possibility that copying this entry raises. -/
structure ZipEntry where
  isAbs : Bool
  parts : List String
  content : List Nat
  corrupt : Bool
deriving DecidableEq

/-- The uploaded byte stream seen through zipfile: readable models whether
ZipFile(bio) opens without raising. -/
structure ZipArchive where
  readable : Bool
  entries : List ZipEntry
deriving DecidableEq

/-- Python pathlib suffix of one name: the part of the name from its last
dot on, empty when the name has no dot or the dot is its first or last
character. -/
def pySuffix (name : String) : String :=
  let rev := name.data.reverse
  let pre := rev.takeWhile (fun c => !(c == '.'))
  if 0 < pre.length && pre.length + 1 < rev.length then
    String.mk ('.' :: pre.reverse)
  else ""

/-- Guard at src line 148: nm.startswith("/") or ".." in Path(nm).parts. -/
def entryBadPath (e : ZipEntry) : Bool := e.isAbs || e.parts.contains ".."

/-- Lowercased extension of the entry, Path(nm).suffix.lower(). -/
def entryExt (e : ZipEntry) : String := lowerStr (pySuffix ((e.parts.getLast?).getD ""))

/-- Guard at src lines 150-152: extension in DISALLOWED_EXTS. -/
def entryDeniedExt (e : ZipEntry) : Bool := DISALLOWED_EXTS.contains (entryExt e)

/-- An entry survives both skip guards and is written to disk. -/
def entryKept (e : ZipEntry) : Bool := !(entryBadPath e) && !(entryDeniedExt e)

/-- Extraction loop over z.infolist() (src lines 145-156): skip unsafe
paths and denylisted extensions, write every other entry under the course
directory; none models an exception escaping to the handler at src 157. -/
def extractLoop : List ZipEntry → List (List String × List Nat) →
    Option (List (List String × List Nat))
  | [], acc => some acc.reverse
  | e :: rest, acc =>
    if entryBadPath e then extractLoop rest acc
    else if entryDeniedExt e then extractLoop rest acc
    else if e.corrupt then none
    else extractLoop rest ((e.parts, e.content) :: acc)

/-- Whole extraction of the archive, none when ZipFile(bio) itself raises
or any copy raises. -/
def extractAll (z : ZipArchive) : Option (List (List String × List Nat)) :=
  if z.readable then extractLoop z.entries [] else none

/-- TEMP_UPLOADS entry for one chat (src line 117, number added at 126). -/
structure Pending where
  bytes : ZipArchive
  filename : String
  uploader : Int
  number : Option String
deriving DecidableEq

/-- Shared server state touched by ingestion: the COURSES registry and the
extracted trees on disk, keyed by course id. -/
structure ServerState where
  courses : Registry
  dirs : List (String × List (List String × List Nat))
deriving DecidableEq

/-- Body of ask_title once the pending record is popped (src lines
135-177): extract into a fresh course directory; on any exception the
directory is removed again (shutil.rmtree) and False signals the generic
extraction-error reply, leaving registry and disk exactly as before; on
success the record is registered and saved.  The fresh course id, token
and timestamp produced by secrets and datetime are explicit arguments. -/
def ask_title_ingest (server : ServerState) (temp : Pending)
    (title cid tok createdAt : String) : ServerState × Bool :=
  match extractAll temp.bytes with
  | none => (server, false)
  | some files =>
    let meta : CourseRecord :=
      ⟨cid, temp.uploader, (temp.number).getD "", title, temp.filename,
        pathStr ["data", "courses", cid], tok, createdAt⟩
    (⟨server.courses ++ [(cid, meta)], server.dirs ++ [(cid, files)]⟩, true)

/-! ### Document reception: recv_document (src lines 100-119) -/

/-- The Telegram document of one message: the declared metadata, the
actual length of the payload the bot would download (never inspected by
the handler), and the payload itself seen as a zip stream. -/
structure Document where
  file_size : Option Nat
  file_name : Option String
  byteLen : Nat
  bytes : ZipArchive
deriving DecidableEq

inductive RecvResult where
  | noDocument
  | tooLarge
  | unsupportedFormat
  | accepted (p : Pending)
deriving DecidableEq

/-- Guard at src line 106: doc.file_size and doc.file_size > MAX_ZIP_SIZE,
with Python truthiness making the whole test false when the declared size
is absent or zero. -/
def declaredTooLarge (d : Document) : Bool :=
  match d.file_size with
  | none => false
  | some n => if n = 0 then false else decide (MAX_ZIP_SIZE < n)

/-- Src line 109: doc.file_name or "upload.zip", with Python
or-defaulting on both an absent and an empty name. -/
def defaultedName (d : Document) : String :=
  match d.file_name with
  | none => "upload.zip"
  | some s => if s = "" then "upload.zip" else s

/-- Src line 110: fname.lower().endswith(".zip"). -/
def endsWithZip (s : String) : Bool := strEndsWith (lowerStr s) ".zip"

/-- recv_document: validate the document and either end the conversation
with a rejection or stash a Pending record and move to ASK_NUMBER. -/
def recv_document (userId : Int) (doc : Option Document) : RecvResult :=
  match doc with
  | none => RecvResult.noDocument
  | some d =>
    if declaredTooLarge d then RecvResult.tooLarge
    else if !(endsWithZip (defaultedName d)) then RecvResult.unsupportedFormat
    else RecvResult.accepted ⟨d.bytes, defaultedName d, userId, none⟩

/-! ### Upload session machine for one conversation (src lines 121-137,
212-216, 226-234) -/

inductive ConvState where
  | idle
  | askNumber
  | askTitle
deriving DecidableEq

inductive ChatEvent where
  | document (userId : Int) (doc : Option Document)
  | text (s : String)
  | cancelCmd
  | timeout
deriving DecidableEq

/-- State of one conversation plus the shared server state: the
ConversationHandler state, this chat entry of TEMP_UPLOADS, and the
registry with the extracted trees. -/
structure ChatState where
  conv : ConvState
  temp : Option Pending
  server : ServerState
deriving DecidableEq

/-- One step of the conversation handler (src lines 226-234).  Documents
enter only from the idle state (entry point); text is routed to
ask_number or ask_title by the current state; the cancel fallback pops
TEMP_UPLOADS.  The timeout transition models conversation_timeout=300:
python-telegram-bot ends the conversation, and since the handler declares
no TIMEOUT-state callbacks nothing else runs, so TEMP_UPLOADS keeps this
chat entry.  The fresh id, token and timestamp consumed by a completing
upload are explicit arguments. -/
def stepEvent (st : ChatState) (ev : ChatEvent) (cid tok ts : String) : ChatState :=
  match ev with
  | ChatEvent.document userId doc =>
    match st.conv with
    | ConvState.idle =>
      (match recv_document userId doc with
       | RecvResult.accepted p => ⟨ConvState.askNumber, some p, st.server⟩
       | _ => ⟨ConvState.idle, st.temp, st.server⟩)
    | _ => st
  | ChatEvent.text s =>
    match st.conv with
    | ConvState.idle => st
    | ConvState.askNumber =>
      (match st.temp with
       | none => ⟨ConvState.idle, none, st.server⟩
       | some p =>
         ⟨ConvState.askTitle,
           some ⟨p.bytes, p.filename, p.uploader, some (pyStrip s)⟩, st.server⟩)
    | ConvState.askTitle =>
      (match st.temp with
       | none => ⟨ConvState.idle, none, st.server⟩
       | some p =>
         ⟨ConvState.idle, none, (ask_title_ingest st.server p (pyStrip s) cid tok ts).1⟩)
  | ChatEvent.cancelCmd => ⟨ConvState.idle, none, st.server⟩
  | ChatEvent.timeout => ⟨ConvState.idle, st.temp, st.server⟩

/-! ### C1: containment of resolved paths in the storage directory -/

theorem resolveParts_append (a b : List String) (acc : List String) :
    resolveParts acc (a ++ b) = resolveParts (resolveParts acc a) b := by
  induction a generalizing acc with
  | nil => rfl
  | cons p ps ih =>
    simp only [List.cons_append, resolveParts]
    split
    · exact ih _
    · split
      · exact ih _
      · exact ih _

theorem resolveParts_clean (b : List String) (acc : List String)
    (hb : ∀ x ∈ b, ¬ x = "" ∧ ¬ x = "." ∧ ¬ x = "..") :
    resolveParts acc b = acc ++ b := by
  induction b generalizing acc with
  | nil => simp [resolveParts]
  | cons p ps ih =>
    obtain ⟨h1, h2, h3⟩ := hb p (List.mem_cons_self p ps)
    have hrest : ∀ x ∈ ps, ¬ x = "" ∧ ¬ x = "." ∧ ¬ x = ".." :=
      fun x hx => hb x (List.mem_cons_of_mem p hx)
    have hstep : resolveParts acc (p :: ps) = resolveParts (acc ++ [p]) ps := by
      simp [resolveParts, h1, h2, h3]
    rw [hstep, ih (acc ++ [p]) hrest]
    simp

theorem normpathCore_clean (l : List String) (up : Nat) (acc : List String)
    (hacc : ∀ x ∈ acc, ¬ x = "" ∧ ¬ x = "." ∧ ¬ x = "..") :
    ∀ x ∈ (normpathCore up acc l).2, ¬ x = "" ∧ ¬ x = "." ∧ ¬ x = ".." := by
  induction l generalizing up acc with
  | nil => simpa [normpathCore] using hacc
  | cons p ps ih =>
    simp only [normpathCore]
    split
    · exact ih up acc hacc
    · split
      · split
        · exact ih (up + 1) acc hacc
        · exact ih up acc.dropLast
            (fun x hx => hacc x (List.dropLast_subset acc hx))
      · refine ih up (acc ++ [p]) ?_
        intro x hx
        rcases List.mem_append.mp hx with hx | hx
        · exact hacc x hx
        · rcases List.mem_singleton.mp hx with rfl
          constructor
          · intro he
            simp [he] at *
          · constructor
            · intro he
              simp [he] at *
            · intro he
              simp [he] at *

/-- C1: the file resolver never hands back a path outside the storage
directory.  Whenever serve_course_file answers with a file, that path is
the storage path extended by the safe_join-normalized relative path,
whose components contain no "..", so its canonicalization is a proper
descendant of the canonicalized storage path; every crafted traversal is
stopped by the startswith gate or by safe_join inside
send_from_directory.  The hypothesis hdir records that the storage
directory itself is a directory and not a regular file, which rules out
serving the bare directory. -/
theorem c1_resolver_containment (courses : Registry) (cid : String)
    (fname : List String) (tok : Option String) (onDisk isFile : List String → Bool)
    (meta : CourseRecord) (p : List String)
    (hmeta : regGet courses cid = some meta)
    (hdir : isFile (strToParts meta.path) = false)
    (h : serve_course_file courses cid fname tok onDisk isFile = ServeResult.serve p) :
    resolveParts [] (strToParts meta.path) <+: resolveParts [] p
    ∧ resolveParts [] p ≠ resolveParts [] (strToParts meta.path) := by
  simp only [serve_course_file, hmeta] at h
  split at h
  · exact ServeResult.noConfusion h
  · split at h
    · exact ServeResult.noConfusion h
    · split at h
      · exact ServeResult.noConfusion h
      · split at h
        · exact ServeResult.noConfusion h
        · split at h
          · exact ServeResult.noConfusion h
          · rename_i hsj hfile
            have hp : strToParts meta.path ++ normpathSegs fname = p :=
              ServeResult.serve.inj h
            have hup : (normpathCore 0 [] fname).1 = 0 := by
              simp [safeJoinRejects] at hsj
              omega
            have hnorm : normpathSegs fname = (normpathCore 0 [] fname).2 := by
              simp [normpathSegs, hup]
            have hclean : ∀ x ∈ normpathSegs fname, ¬ x = "" ∧ ¬ x = "." ∧ ¬ x = ".." := by
              rw [hnorm]
              exact normpathCore_clean fname 0 [] (by simp)
            have hne : normpathSegs fname ≠ [] := by
              intro hz
              rw [hz, List.append_nil] at hfile
              rw [hdir] at hfile
              exact hfile rfl
            have hres : resolveParts [] p
                = resolveParts [] (strToParts meta.path) ++ normpathSegs fname := by
              rw [← hp, resolveParts_append,
                resolveParts_clean (normpathSegs fname) _ hclean]
            constructor
            · rw [hres]
              exact List.prefix_append _ _
            · rw [hres]
              intro he
              have hlen := congrArg List.length he
              simp at hlen
              exact hne hlen

/-- Witness for C1: a legitimate nested request is served and its
resolved path properly extends the storage path. -/
theorem c1_resolver_containment_witness :
    resolveParts [] (strToParts "/data/courses/x1")
        <+: resolveParts [] ["data", "courses", "x1", "trainer", "index.html"]
    ∧ resolveParts [] ["data", "courses", "x1", "trainer", "index.html"]
        ≠ resolveParts [] (strToParts "/data/courses/x1") :=
  c1_resolver_containment
    [("c1", (⟨"c1", 7, "101", "T", "a.zip", "/data/courses/x1", "tok", "ts"⟩ :
      CourseRecord))]
    "c1" ["trainer", "index.html"] (some "tok") (fun _ => true)
    (fun q => q == ["data", "courses", "x1", "trainer", "index.html"])
    _ _ rfl (by decide) (by decide)

/-! ### C2: exact, non-empty token equality -/

/-- C2: for a course present in the registry, anything other than an
exact, non-empty match between the supplied token and the stored token
makes serve_course_file answer forbidden; in particular a prefix, a
case-variant, the empty string and an absent token are all denied, and a
request can only succeed on the exact non-empty match. -/
theorem c2_token_exact_match (courses : Registry) (cid : String)
    (fname : List String) (tok : Option String) (onDisk isFile : List String → Bool)
    (meta : CourseRecord) (hmeta : regGet courses cid = some meta)
    (htok : ¬ (tok = some meta.token ∧ meta.token ≠ "")) :
    serve_course_file courses cid fname tok onDisk isFile = ServeResult.forbidden := by
  have ht : tokenOk tok meta.token = false := by
    cases tok with
    | none => rfl
    | some t =>
      by_cases h0 : t = ""
      · simp [tokenOk, h0]
      · have hne : ¬ t = meta.token := by
          intro he
          exact htok ⟨by rw [he], by rw [← he]; exact h0⟩
        simp [tokenOk, h0, hne]
  simp [serve_course_file, hmeta, ht]

/-- Witness for C2 at a concrete input: a strict prefix of the stored
token is refused. -/
theorem c2_token_exact_match_witness :
    serve_course_file
        [("c", (⟨"c", 7, "1", "T", "a.zip", "/data/courses/c", "secret01", "ts"⟩ :
          CourseRecord))]
        "c" ["index.html"] (some "secret") (fun _ => true) (fun _ => true)
      = ServeResult.forbidden :=
  c2_token_exact_match _ _ _ _ _ _ _ rfl (by decide)

/-! ### C7: registry persistence round-trip -/

theorem decodeRecord_encodeRecord (r : CourseRecord) :
    decodeRecord (encodeRecord r) = some r := rfl

theorem decodeEntries_encoded (reg : Registry) :
    decodeEntries (reg.map (fun kv => (kv.1, encodeRecord kv.2))) = some reg := by
  induction reg with
  | nil => rfl
  | cons kv rest ih =>
    simp [decodeEntries, decodeRecord_encodeRecord, ih]

/-- C7: saving the registry snapshot and loading it back yields the very
same records, every field preserved. -/
theorem c7_registry_roundtrip (reg : Registry) :
    load_db (some (save_db reg)) = reg := by
  simp [load_db, save_db, decodeRegistry, decodeEntries_encoded]

/-! ### C8: fail-soft registry load -/

/-- C8: when the snapshot text cannot be parsed (the json.loads exception
branch, modelled by none), load_db yields the empty registry; load_db is
a total function, so startup never fails on snapshot corruption. -/
theorem c8_load_fails_soft : load_db none = ([] : Registry) := rfl

/-! ### C3: full rollback on extraction failure -/

/-- C3: whenever extraction fails (the archive is unreadable or copying
an entry raises), ingestion leaves the server state exactly as it was:
the registry gains no record, the partially-created storage directory is
gone again, and the failure flag signals the extraction-error reply. -/
theorem c3_extraction_rollback (server : ServerState) (temp : Pending)
    (title cid tok ts : String) (h : extractAll temp.bytes = none) :
    ask_title_ingest server temp title cid tok ts = (server, false) := by
  simp [ask_title_ingest, h]

/-- Witness for C3: a byte stream that zipfile cannot open rolls back. -/
theorem c3_extraction_rollback_witness :
    ask_title_ingest ⟨[], []⟩ ⟨⟨false, []⟩, "a.zip", 7, some "1"⟩ "T" "cid" "tok" "ts"
      = (⟨[], []⟩, false) :=
  c3_extraction_rollback _ _ _ _ _ _ rfl

/-! ### C4: unsafe entries are skipped, safe entries extracted -/

theorem extractLoop_safe (es : List ZipEntry)
    (hc : ∀ e ∈ es, entryKept e = true → e.corrupt = false)
    (acc : List (List String × List Nat)) :
    extractLoop es acc
      = some (acc.reverse ++ (es.filter entryKept).map (fun e => (e.parts, e.content))) := by
  induction es generalizing acc with
  | nil => simp [extractLoop]
  | cons e rest ih =>
    have hrest : ∀ x ∈ rest, entryKept x = true → x.corrupt = false :=
      fun x hx => hc x (List.mem_cons_of_mem e hx)
    by_cases hb : entryBadPath e = true
    · have hk : entryKept e = false := by simp [entryKept, hb]
      simp [extractLoop, hb, hk, ih hrest]
    · by_cases hd : entryDeniedExt e = true
      · have hk : entryKept e = false := by simp [entryKept, hd]
        simp [extractLoop, hb, hd, hk, ih hrest]
      · have hk : entryKept e = true := by
          simp [entryKept]
          exact ⟨by simpa using hb, by simpa using hd⟩
        have hcor : e.corrupt = false := hc e (List.mem_cons_self e rest) hk
        simp [extractLoop, hb, hd, hcor, hk, ih hrest]

/-- C4: on an archive that opens, every entry with an absolute path or a
parent-traversal component and every entry with a denylisted extension is
silently skipped (the written tree is exactly the image of the safe
entries), the operation still succeeds, and the registry gains exactly
the one new record for the fresh course id. -/
theorem c4_unsafe_entries_skipped (server : ServerState) (temp : Pending)
    (title cid tok ts : String) (hr : temp.bytes.readable = true)
    (hc : ∀ e ∈ temp.bytes.entries, entryKept e = true → e.corrupt = false) :
    ask_title_ingest server temp title cid tok ts
      = (⟨server.courses ++
            [(cid, ⟨cid, temp.uploader, (temp.number).getD "", title, temp.filename,
              pathStr ["data", "courses", cid], tok, ts⟩)],
          server.dirs ++
            [(cid, (temp.bytes.entries.filter entryKept).map (fun e => (e.parts, e.content)))]⟩,
         true) := by
  have hx : extractAll temp.bytes
      = some ((temp.bytes.entries.filter entryKept).map (fun e => (e.parts, e.content))) := by
    simp [extractAll, hr, extractLoop_safe temp.bytes.entries hc []]
  simp [ask_title_ingest, hx]

/-- Witness for C4: an archive with one traversal entry, one denylisted
entry and one safe entry yields only the safe entry and one record. -/
theorem c4_unsafe_entries_skipped_witness :
    ask_title_ingest ⟨[], []⟩
        ⟨⟨true, [⟨false, ["..", "evil"], [9], false⟩, ⟨false, ["run.exe"], [8], false⟩,
          ⟨false, ["index.html"], [1], false⟩]⟩, "a.zip", 7, some "101"⟩
        "T" "c9x" "tk" "ts"
      = (⟨[("c9x", ⟨"c9x", 7, "101", "T", "a.zip", pathStr ["data", "courses", "c9x"],
            "tk", "ts"⟩)],
          [("c9x", [(["index.html"], [1])])]⟩, true) :=
  c4_unsafe_entries_skipped _ _ _ _ _ _ rfl (by decide)

/-! ### C5: size limit checks only the declared size -/

/-- C5 counterexample: a document whose declared size is absent but whose
actual payload exceeds the 200 MiB limit is not rejected; recv_document
accepts it into a PendingUpload, refuting the claim that any upload whose
declared or actual size exceeds the maximum is rejected before
extraction. -/
theorem c5_actual_size_unchecked :
    MAX_ZIP_SIZE <
      (⟨none, some "big.zip", MAX_ZIP_SIZE + 1, ⟨true, []⟩⟩ : Document).byteLen
    ∧ recv_document 7 (some ⟨none, some "big.zip", MAX_ZIP_SIZE + 1, ⟨true, []⟩⟩)
        = RecvResult.accepted ⟨⟨true, []⟩, "big.zip", 7, none⟩ := by
  constructor
  · decide
  · rfl

/-- C5 amended: the upload is rejected as too large exactly when the
declared file size is present and exceeds MAX_ZIP_SIZE; the actual byte
length of the payload is never examined.  The rejection happens before
any extraction, so no pending upload and no storage directory arise. -/
theorem c5_declared_size_check (userId : Int) (d : Document) :
    recv_document userId (some d) = RecvResult.tooLarge
      ↔ ∃ n, d.file_size = some n ∧ MAX_ZIP_SIZE < n := by
  obtain ⟨fs, fn, bl, bz⟩ := d
  cases fs with
  | none =>
    simp [recv_document, declaredTooLarge]
    split <;> simp
  | some n =>
    by_cases h0 : n = 0
    · subst h0
      simp [recv_document, declaredTooLarge]
      split <;> simp
    · by_cases hl : MAX_ZIP_SIZE < n
      · simp [recv_document, declaredTooLarge, h0, hl]
      · simp [recv_document, declaredTooLarge, h0, hl]
        split <;> simp [hl]

/-- Witness for the amended C5: a declared size one over the limit is
rejected as too large. -/
theorem c5_declared_size_check_witness :
    recv_document 7 (some ⟨some (MAX_ZIP_SIZE + 1), some "a.zip", 0, ⟨true, []⟩⟩)
      = RecvResult.tooLarge :=
  (c5_declared_size_check 7 _).mpr ⟨MAX_ZIP_SIZE + 1, rfl, by decide⟩

/-! ### C6: conversation timeout -/

/-- C6 counterexample: a conversation driven to the awaiting-title state
by a document and a number message and then hit by the timeout ends with
the conversation back at idle and the server untouched, but the
TEMP_UPLOADS entry still holds the pending upload, refuting the claim
that the timeout destroys the PendingUpload. -/
theorem c6_timeout_keeps_pending :
    stepEvent
        (stepEvent
          (stepEvent ⟨ConvState.idle, none, ⟨[], []⟩⟩
            (ChatEvent.document 7 (some ⟨some 1000, some "course.zip", 1000, ⟨true, []⟩⟩))
            "c" "t" "s")
          (ChatEvent.text "101") "c" "t" "s")
        ChatEvent.timeout "c" "t" "s"
      = ⟨ConvState.idle, some ⟨⟨true, []⟩, "course.zip", 7, some "101"⟩, ⟨[], []⟩⟩ := by
  decide

/-- C6 amended: the timeout returns the conversation to idle without
invoking ingestion, so the registry and the extracted trees are exactly
as before, but it leaves the TEMP_UPLOADS entry in place: the pending
upload survives until a cancel or a later document replaces it. -/
theorem c6_timeout_to_idle (st : ChatState) (cid tok ts : String) :
    stepEvent st ChatEvent.timeout cid tok ts
      = ⟨ConvState.idle, st.temp, st.server⟩ := rfl

/-! ### C9: find filters by owner and case-insensitive substring -/

/-- C9: whenever find_cmd reports a result list, a record is in it
exactly when it is one of the registry records, its owner is the
requester, and the lowercased query occurs as a substring of the
lowercased number-and-title text of the record. -/
theorem c9_find_filter (courses : List CourseRecord) (userId : Int)
    (args : List String) (res : List CourseRecord) (c : CourseRecord)
    (h : find_cmd courses userId args = some res) :
    c ∈ res ↔ (c ∈ courses ∧ c.owner = userId
      ∧ substrB (findQuery args) (courseText c) = true) := by
  by_cases hq : findQuery args = ""
  · simp [find_cmd, hq] at h
  · simp only [find_cmd, hq, if_neg, Option.some.injEq, ite_false] at h
    subst h
    simp [List.mem_filter, and_assoc]
    tauto

/-- Witness for C9, the specification scenario: the query algebra against
the records Algebra I and Geometry of the same owner selects exactly the
Algebra I record. -/
theorem c9_find_filter_witness :
    (⟨"idA", 7, "101", "Algebra I", "a.zip", "/data/courses/idA", "t1", "d1"⟩ :
        CourseRecord) ∈
      [(⟨"idA", 7, "101", "Algebra I", "a.zip", "/data/courses/idA", "t1", "d1"⟩ :
        CourseRecord)]
    ↔ ((⟨"idA", 7, "101", "Algebra I", "a.zip", "/data/courses/idA", "t1", "d1"⟩ :
          CourseRecord) ∈
        [(⟨"idA", 7, "101", "Algebra I", "a.zip", "/data/courses/idA", "t1", "d1"⟩ :
            CourseRecord),
          (⟨"idG", 7, "102", "Geometry", "g.zip", "/data/courses/idG", "t2", "d2"⟩ :
            CourseRecord)]
      ∧ (⟨"idA", 7, "101", "Algebra I", "a.zip", "/data/courses/idA", "t1", "d1"⟩ :
          CourseRecord).owner = 7
      ∧ substrB (findQuery ["algebra"])
          (courseText ⟨"idA", 7, "101", "Algebra I", "a.zip", "/data/courses/idA",
            "t1", "d1"⟩) = true) :=
  c9_find_filter
    [⟨"idA", 7, "101", "Algebra I", "a.zip", "/data/courses/idA", "t1", "d1"⟩,
      ⟨"idG", 7, "102", "Geometry", "g.zip", "/data/courses/idG", "t2", "d2"⟩]
    7 ["algebra"]
    [⟨"idA", 7, "101", "Algebra I", "a.zip", "/data/courses/idA", "t1", "d1"⟩]
    ⟨"idA", 7, "101", "Algebra I", "a.zip", "/data/courses/idA", "t1", "d1"⟩
    (by decide)

/-! ### C10: absent filename defaults to upload.zip -/

/-- C10: a document event without a declared filename is given the
default name upload.zip, which passes the archive-extension test, so the
document is accepted into a PendingUpload carrying that name rather than
rejected as an unsupported format (provided the declared size does not
trip the size guard). -/
theorem c10_default_filename (userId : Int) (d : Document)
    (h1 : d.file_name = none) (h2 : declaredTooLarge d = false) :
    recv_document userId (some d)
      = RecvResult.accepted ⟨d.bytes, "upload.zip", userId, none⟩ := by
  have hn : defaultedName d = "upload.zip" := by
    simp [defaultedName, h1]
  have he : endsWithZip "upload.zip" = true := by decide
  simp [recv_document, h2, hn, he]

/-- Witness for C10 at a concrete document with no declared name. -/
theorem c10_default_filename_witness :
    recv_document 7 (some ⟨some 5, none, 5, ⟨true, []⟩⟩)
      = RecvResult.accepted ⟨⟨true, []⟩, "upload.zip", 7, none⟩ :=
  c10_default_filename 7 _ rfl rfl
